import Mathlib

/-!
# Verification of `zero`'s hierarchical locking (`src/zero/locking.py`)

Shallow embedding of `PathLock` and `NodeLock` from `src/zero/locking.py`.
The two filesystem-backed registries (`LOCKDIR` lock files, `ABORT_REQUEST_DIR`
marker files) are modelled as a `SysState` threaded explicitly through every
operation.  A trace of events (try-lock attempts, sleeps, acquisitions,
releases) is accumulated in the state so that retry counts, backoff sleeps and
acquisition/release order are observable.
-/

set_option maxHeartbeats 1000000

namespace Zero

/-- The state of one lock slot in the lock registry (one lock file per inode):
free, held shared by `n + 1` holders, or held exclusively. -/
inductive LockState where
  | free : LockState
  | shared : Nat → LockState
  | exclusive : LockState
  deriving DecidableEq, Repr

/-- Observable events: a try-lock attempt on an inode, a 1-second sleep
(`time.sleep(1.)` in `NodeLock.__enter__`), a successful acquisition of an
inode, and a release of an inode. -/
inductive Event where
  | tried : Nat → Event
  | slept : Event
  | acquired : Nat → Event
  | released : Nat → Event
  deriving DecidableEq, Repr

/-- The shared system state: the lock registry (`LOCKDIR`), the abort-request
registry (`ABORT_REQUEST_DIR`, one marker file per inode, modelled as its
existence predicate), and the accumulated event trace. -/
structure SysState where
  lockTable : Nat → LockState
  abortReqs : Nat → Bool
  events : List Event

/-- Append one event to the trace. -/
def SysState.emit (st : SysState) (e : Event) : SysState :=
  { st with events := st.events ++ [e] }

/-- Update the lock registry at one inode. -/
def SysState.setLock (st : SysState) (i : Nat) (v : LockState) : SysState :=
  { st with lockTable := fun j => if j = i then v else st.lockTable j }

/-- Update the abort-request registry at one inode. -/
def SysState.setAbort (st : SysState) (i : Nat) (v : Bool) : SysState :=
  { st with abortReqs := fun j => if j = i then v else st.abortReqs j }

/-- `NodeLockedException` from `src/zero/locking.py` (the spec's
`ResourceLocked` error). -/
inductive NodeLockedException where
  | mk : NodeLockedException
  deriving DecidableEq, Repr

/-- Does a try-lock request in the given mode conflict with the current state
of the slot?  An exclusive request conflicts with any holder; a shared request
conflicts only with an exclusive holder. -/
def conflicts (ls : LockState) (exclusive : Bool) : Bool :=
  match ls, exclusive with
  | .free, _ => false
  | .shared _, false => false
  | .shared _, true => true
  | .exclusive, _ => true

/-- Modelled from the spec: the external Try-Lock Primitive (`portalocker.Lock`
in the source, an external collaborator whose code is not part of this
repository).  Per spec §6, `tryLock(resourceId, mode) -> {Acquired(handle) |
AlreadyHeld}` and `unlock(handle)`.  A `PLock` object records the target inode,
the requested mode, and the handle (`fh`), which is present exactly when the
acquisition succeeded. -/
structure PLock where
  inode : Nat
  exclusive : Bool
  fh : Option Unit
  deriving DecidableEq, Repr

/-- Modelled from the spec: non-blocking acquisition by the Try-Lock Primitive
(`portalocker.Lock.acquire` with `fail_when_locked=True`): reports success or
"already held" without blocking; on success the handle is recorded. -/
def PLock.acquire (l : PLock) (st : SysState) :
    Except Unit (PLock × SysState) :=
  let cur := st.lockTable l.inode
  if conflicts cur l.exclusive then
    .error ()
  else
    let next : LockState :=
      if l.exclusive then .exclusive
      else match cur with
        | .shared n => .shared (n + 1)
        | _ => .shared 0
    .ok ({ l with fh := some () },
         ((st.setLock l.inode next).emit (.acquired l.inode)))

/-- Modelled from the spec: release by the Try-Lock Primitive
(`portalocker.Lock.release`): releases the held handle; with no handle held
(the acquisition never succeeded) it is a no-op. -/
def PLock.release (l : PLock) (st : SysState) : PLock × SysState :=
  match l.fh with
  | none => (l, st)
  | some _ =>
    let next : LockState :=
      match st.lockTable l.inode with
      | .shared (n + 1) => .shared n
      | _ => .free
    ({ l with fh := none },
     ((st.setLock l.inode next).emit (.released l.inode)))

/-- `NodeLock` from `src/zero/locking.py`: mode, retry budget, inode, priority
flag, and the `self.lock` attribute (`none` models the attribute not having
been assigned yet; it is first assigned inside `_try_locking`). -/
structure NodeLock where
  exclusive : Bool
  acquisition_max_retries : Nat
  inode : Nat
  high_priority : Bool
  lock : Option PLock
  deriving DecidableEq, Repr

/-- `NodeLock.__init__`: stores the configuration; `self.lock` is not set. -/
def NodeLock.init (inode : Nat) (exclusive : Bool)
    (acquisition_max_retries : Nat := 0) (high_priority : Bool := false) :
    NodeLock :=
  { exclusive := exclusive, acquisition_max_retries := acquisition_max_retries,
    inode := inode, high_priority := high_priority, lock := none }

/-- `NodeLock.abort_requested`: does the abort-request marker file for this
inode exist? -/
def NodeLock.abort_requested (nl : NodeLock) (st : SysState) : Bool :=
  st.abortReqs nl.inode

/-- `NodeLock._request_abort`: create the marker file for this inode
(creating the registry directory first if needed); overwriting an existing
marker leaves its existence unchanged. -/
def NodeLock.request_abort (nl : NodeLock) (st : SysState) : SysState :=
  st.setAbort nl.inode true

/-- `NodeLock._remove_abort_request`: remove the marker file for this inode if
it exists. -/
def NodeLock.remove_abort_request (nl : NodeLock) (st : SysState) : SysState :=
  if nl.abort_requested st then st.setAbort nl.inode false else st

/-- `NodeLock._try_locking`: assign `self.lock` to a fresh primitive lock
object and attempt non-blocking acquisition.  On `AlreadyLocked`: post an
abort request when `high_priority`, and report `false`.  On success: clear any
pending abort request and report `true`.  Returns the reported Bool, the
updated `NodeLock` (its `lock` attribute is assigned either way), and the
updated state. -/
def NodeLock.try_locking (nl : NodeLock) (st : SysState) :
    Bool × NodeLock × SysState :=
  let l : PLock := { inode := nl.inode, exclusive := nl.exclusive, fh := none }
  let st := st.emit (.tried nl.inode)
  match l.acquire st with
  | .error _ =>
    let st := if nl.high_priority then nl.request_abort st else st
    (false, { nl with lock := some l }, st)
  | .ok (l', st') =>
    (true, { nl with lock := some l' }, nl.remove_abort_request st')

/-- The retry loop of `NodeLock.__enter__`:
`for counter in range(acquisition_max_retries): time.sleep(1.); if
self._try_locking(): return self`, followed by `raise NodeLockedException`
when the budget is exhausted. -/
def NodeLock.retryLoop : Nat → NodeLock → SysState →
    Except NodeLockedException Unit × NodeLock × SysState
  | 0, nl, st => (.error .mk, nl, st)
  | n + 1, nl, st =>
    let st := st.emit .slept
    match nl.try_locking st with
    | (true, nl', st') => (.ok (), nl', st')
    | (false, nl', st') => NodeLock.retryLoop n nl' st'

/-- `NodeLock.__enter__`: one initial try-lock attempt, then the bounded retry
loop with a 1-second sleep before each retry; raises `NodeLockedException`
when every attempt fails. -/
def NodeLock.enter (nl : NodeLock) (st : SysState) :
    Except NodeLockedException Unit × NodeLock × SysState :=
  match nl.try_locking st with
  | (true, nl', st') => (.ok (), nl', st')
  | (false, nl', st') => NodeLock.retryLoop nl.acquisition_max_retries nl' st'

/-- `NodeLock.__exit__` / `NodeLock._unlock`: `self.lock.release()`.  When the
`self.lock` attribute was never assigned (no acquisition was ever attempted)
this raises `AttributeError`, modelled as the `error` branch. -/
def NodeLock.exit (nl : NodeLock) (st : SysState) :
    Except Unit (NodeLock × SysState) :=
  match nl.lock with
  | none => .error ()
  | some l =>
    let (l', st') := l.release st
    .ok ({ nl with lock := some l' }, st')

/-- Modelled from the spec: `yield_partials` from `src/zero/path_utils.py`
(imported by `locking.py` but absent from `src/`): `splitPath(path) ->
orderedList<pathPrefix>`, the ordered partial prefixes of the path from root
to leaf, minimum one element (the leaf).  A path is represented as its list of
segments, a trailing separator already ignored by that representation. -/
def yield_partials (path : List String) : List (List String) :=
  (List.range path.length).map (fun k => path.take (k + 1))

/-- `PathLock`: the ordered list of `NodeLock`s, root to leaf. -/
structure PathLock where
  locks : List NodeLock
  deriving DecidableEq, Repr

/-- `PathLock.__init__`: split the path into its ordered partial prefixes,
build one `NodeLock` per non-leaf prefix with mode `exclusive_lock_on_path`,
then one `NodeLock` for the leaf prefix with mode `exclusive_lock_on_leaf`,
all sharing `acquisition_max_retries` and `high_priority`.  `partials[-1]`
raises `IndexError` when the decomposition is empty, modelled as `none`.
`get_inode` is the external Resource Identity Resolver
(`inode_store.get_inode`), a deterministic pure mapping per spec §6.  The
state is threaded to express that construction performs no registry
operation. -/
def PathLock.init (path : List String) (get_inode : List String → Nat)
    (exclusive_lock_on_path : Bool) (exclusive_lock_on_leaf : Bool)
    (high_priority : Bool) (acquisition_max_retries : Nat) (st : SysState) :
    Option (PathLock × SysState) :=
  let partials := yield_partials path
  match partials.getLast? with
  | none => none
  | some leaf =>
    let pathLocks := partials.dropLast.map (fun p =>
      NodeLock.init (get_inode p) exclusive_lock_on_path
        acquisition_max_retries high_priority)
    let leafLock := NodeLock.init (get_inode leaf) exclusive_lock_on_leaf
      acquisition_max_retries high_priority
    some ({ locks := pathLocks ++ [leafLock] }, st)

/-- The loop of `PathLock.__enter__`: `for lock in self.locks:
lock.__enter__()`.  A `NodeLockedException` raised by a later lock propagates
at once; locks already acquired by earlier iterations are not released. -/
def PathLock.enterLocks : List NodeLock → SysState →
    Except NodeLockedException Unit × List NodeLock × SysState
  | [], st => (.ok (), [], st)
  | l :: rest, st =>
    match l.enter st with
    | (.error e, l', st') => (.error e, l' :: rest, st')
    | (.ok _, l', st') =>
      let (r, rest', st'') := PathLock.enterLocks rest st'
      (r, l' :: rest', st'')

/-- `PathLock.__enter__`. -/
def PathLock.enter (pl : PathLock) (st : SysState) :
    Except NodeLockedException Unit × PathLock × SysState :=
  let (r, ls, st') := PathLock.enterLocks pl.locks st
  (r, { locks := ls }, st')

/-- The loop of `PathLock.__exit__`: `for lock in self.locks:
lock.__exit__()`; an error raised by one lock's exit propagates at once. -/
def PathLock.exitLocks : List NodeLock → SysState →
    Except Unit (List NodeLock × SysState)
  | [], st => .ok ([], st)
  | l :: rest, st =>
    match l.exit st with
    | .error e => .error e
    | .ok (l', st') =>
      match PathLock.exitLocks rest st' with
      | .error e => .error e
      | .ok (ls, st'') => .ok (l' :: ls, st'')

/-- `PathLock.__exit__`. -/
def PathLock.exit (pl : PathLock) (st : SysState) :
    Except Unit (PathLock × SysState) :=
  match PathLock.exitLocks pl.locks st with
  | .error e => .error e
  | .ok (ls, st') => .ok ({ locks := ls }, st')

/-- `PathLock.abort_requested`: true as soon as some `NodeLock` of the path
reports a pending abort request. -/
def PathLock.abort_requested (pl : PathLock) (st : SysState) : Bool :=
  pl.locks.any (fun l => l.abort_requested st)

/-- The inodes acquired by a trace, in order. -/
def acquiresOf (evs : List Event) : List Nat :=
  evs.filterMap (fun e => match e with | .acquired i => some i | _ => none)

/-- The inodes released by a trace, in order. -/
def releasesOf (evs : List Event) : List Nat :=
  evs.filterMap (fun e => match e with | .released i => some i | _ => none)

/-- The number of try-lock attempts in a trace. -/
def triesOf (evs : List Event) : Nat :=
  evs.countP (fun e => match e with | .tried _ => true | _ => false)

/-- The number of 1-second sleeps in a trace. -/
def sleepsOf (evs : List Event) : Nat :=
  evs.countP (fun e => match e with | .slept => true | _ => false)

/-- A `NodeLock` whose primitive lock object exists and holds no handle:
the fully released (or never-acquired-after-attempt) state. -/
def releasedState (nl : NodeLock) : Bool :=
  match nl.lock with
  | some p => p.fh.isNone
  | none => false

/-! ## Basic simp lemmas about the state operations and trace functions -/

@[simp] theorem emit_lockTable (st : SysState) (e : Event) :
    (st.emit e).lockTable = st.lockTable := rfl

@[simp] theorem emit_abortReqs (st : SysState) (e : Event) :
    (st.emit e).abortReqs = st.abortReqs := rfl

@[simp] theorem emit_events (st : SysState) (e : Event) :
    (st.emit e).events = st.events ++ [e] := rfl

@[simp] theorem setLock_abortReqs (st : SysState) (i : Nat) (v : LockState) :
    (st.setLock i v).abortReqs = st.abortReqs := rfl

@[simp] theorem setLock_events (st : SysState) (i : Nat) (v : LockState) :
    (st.setLock i v).events = st.events := rfl

@[simp] theorem setAbort_lockTable (st : SysState) (i : Nat) (v : Bool) :
    (st.setAbort i v).lockTable = st.lockTable := rfl

@[simp] theorem setAbort_events (st : SysState) (i : Nat) (v : Bool) :
    (st.setAbort i v).events = st.events := rfl

@[simp] theorem setAbort_abortReqs (st : SysState) (i : Nat) (v : Bool) (j : Nat) :
    (st.setAbort i v).abortReqs j = if j = i then v else st.abortReqs j := rfl

@[simp] theorem setLock_lockTable (st : SysState) (i : Nat) (v : LockState) (j : Nat) :
    (st.setLock i v).lockTable j = if j = i then v else st.lockTable j := rfl

@[simp] theorem acquiresOf_nil : acquiresOf [] = [] := rfl

@[simp] theorem releasesOf_nil : releasesOf [] = [] := rfl

@[simp] theorem acquiresOf_append (a b : List Event) :
    acquiresOf (a ++ b) = acquiresOf a ++ acquiresOf b :=
  List.filterMap_append a b _

@[simp] theorem releasesOf_append (a b : List Event) :
    releasesOf (a ++ b) = releasesOf a ++ releasesOf b :=
  List.filterMap_append a b _

@[simp] theorem triesOf_append (a b : List Event) :
    triesOf (a ++ b) = triesOf a + triesOf b :=
  List.countP_append _ a b

@[simp] theorem sleepsOf_append (a b : List Event) :
    sleepsOf (a ++ b) = sleepsOf a + sleepsOf b :=
  List.countP_append _ a b

/-! ## Characterization of `NodeLock._try_locking` -/

/-- A failing try-lock attempt: the resource is held in a conflicting mode.
The attempt reports `false`, assigns `self.lock` to the unacquired primitive
lock object, adds one `tried` event, and posts the abort request exactly when
`high_priority` is set. -/
theorem try_locking_fail (nl : NodeLock) (st : SysState)
    (h : conflicts (st.lockTable nl.inode) nl.exclusive = true) :
    nl.try_locking st =
      (false, { nl with lock := some ⟨nl.inode, nl.exclusive, none⟩ },
        if nl.high_priority then
          (st.emit (.tried nl.inode)).setAbort nl.inode true
        else st.emit (.tried nl.inode)) := by
  simp only [NodeLock.try_locking, PLock.acquire, NodeLock.request_abort,
    emit_lockTable, h]
  rfl

/-- A successful try-lock attempt: no conflicting holder.  The attempt
reports `true`, records the acquired handle, adds `tried` and `acquired`
events, leaves the lock table unchanged away from the inode, and clears any
pending abort request for the inode while touching no other marker. -/
theorem try_locking_success (nl : NodeLock) (st : SysState)
    (h : conflicts (st.lockTable nl.inode) nl.exclusive = false) :
    ∃ st', nl.try_locking st =
      (true, { nl with lock := some ⟨nl.inode, nl.exclusive, some ()⟩ }, st') ∧
      st'.events = st.events ++ [.tried nl.inode, .acquired nl.inode] ∧
      (∀ j, st'.abortReqs j = if j = nl.inode then false else st.abortReqs j) ∧
      (∀ j, j ≠ nl.inode → st'.lockTable j = st.lockTable j) := by
  simp only [NodeLock.try_locking, PLock.acquire, NodeLock.remove_abort_request,
    NodeLock.abort_requested, emit_lockTable, h]
  refine ⟨_, rfl, ?_, ?_, ?_⟩
  · by_cases hab : st.abortReqs nl.inode = true <;>
      simp [hab, SysState.setAbort, SysState.setLock, SysState.emit]
  · intro j
    by_cases hab : st.abortReqs nl.inode = true <;>
      by_cases hj : j = nl.inode <;>
      simp [hab, hj, SysState.setAbort, SysState.setLock, SysState.emit]
  · intro j hj
    by_cases hab : st.abortReqs nl.inode = true <;>
      simp [hab, hj, SysState.setAbort, SysState.setLock, SysState.emit]

/-! ## Characterization of the retry loop and `NodeLock.__enter__` -/

/-- The trace left behind by `n` failed retry iterations: a sleep followed by
a try-lock attempt, `n` times. -/
def failTrace (n : Nat) (i : Nat) : List Event :=
  (List.replicate n [Event.slept, Event.tried i]).flatten

@[simp] theorem failTrace_zero (i : Nat) : failTrace 0 i = [] := rfl

@[simp] theorem failTrace_succ (n : Nat) (i : Nat) :
    failTrace (n + 1) i = Event.slept :: Event.tried i :: failTrace n i := rfl

@[simp] theorem triesOf_failTrace (n : Nat) (i : Nat) :
    triesOf (failTrace n i) = n := by
  induction n with
  | zero => rfl
  | succ n ih => simp [triesOf, List.countP_cons] at ih ⊢; omega

@[simp] theorem sleepsOf_failTrace (n : Nat) (i : Nat) :
    sleepsOf (failTrace n i) = n := by
  induction n with
  | zero => rfl
  | succ n ih => simp [sleepsOf, List.countP_cons] at ih ⊢; omega

@[simp] theorem acquiresOf_failTrace (n : Nat) (i : Nat) :
    acquiresOf (failTrace n i) = [] := by
  induction n with
  | zero => rfl
  | succ n ih => simp [acquiresOf, List.filterMap_cons] at ih ⊢; exact ih

@[simp] theorem releasesOf_failTrace (n : Nat) (i : Nat) :
    releasesOf (failTrace n i) = [] := by
  induction n with
  | zero => rfl
  | succ n ih => simp [releasesOf, List.filterMap_cons] at ih ⊢; exact ih

/-- When the resource stays held in a conflicting mode, every iteration of the
retry loop fails: `n` iterations sleep and re-try `n` times, leave the lock
table untouched, and end in `NodeLockedException`. -/
theorem retryLoop_conflict : ∀ (n : Nat) (nl : NodeLock) (st : SysState),
    conflicts (st.lockTable nl.inode) nl.exclusive = true →
    ∃ nl' st', NodeLock.retryLoop n nl st = (.error .mk, nl', st') ∧
      st'.lockTable = st.lockTable ∧
      st'.events = st.events ++ failTrace n nl.inode
  | 0, nl, st, _ => ⟨nl, st, rfl, rfl, by simp⟩
  | n + 1, nl, st, h => by
    have hfail := try_locking_fail nl (st.emit .slept)
      (by simpa using h)
    have hrec := retryLoop_conflict n
      { nl with lock := some ⟨nl.inode, nl.exclusive, none⟩ }
      (if nl.high_priority then
          ((st.emit .slept).emit (.tried nl.inode)).setAbort nl.inode true
        else (st.emit .slept).emit (.tried nl.inode))
      (by by_cases hp : nl.high_priority <;> simpa [hp] using h)
    obtain ⟨nl', st', hloop, hlt, hev⟩ := hrec
    refine ⟨nl', st', ?_, ?_, ?_⟩
    · simp only [NodeLock.retryLoop, hfail]
      exact hloop
    · rw [hlt]
      by_cases hp : nl.high_priority <;> simp [hp]
    · rw [hev]
      by_cases hp : nl.high_priority <;>
        simp [hp, failTrace_succ, List.append_assoc]

/-! ## Concrete test states -/

/-- A state with every lock slot free, no abort request, empty trace. -/
def stAllFree : SysState := ⟨fun _ => .free, fun _ => false, []⟩

/-- A state with every lock slot held exclusively by someone else. -/
def stHeldEx : SysState := ⟨fun _ => .exclusive, fun _ => false, []⟩

/-- A state with every slot free and a pending abort request on inode 5. -/
def stFreeAbort5 : SysState := ⟨fun _ => .free, fun j => j == 5, []⟩

/-! ## Claims C1, C2, C3 -/

/-- C1: for every `NodeLock` whose resource stays held in a conflicting mode
throughout the attempt, `acquire()` (`NodeLock.__enter__`) makes exactly
`1 + acquisition_max_retries` try-lock attempts, sleeping one fixed time unit
before each retry attempt (the trace is one attempt followed by
`acquisition_max_retries` sleep-then-attempt pairs), and then fails with the
`ResourceLocked` error (`NodeLockedException`); with
`acquisition_max_retries = 0` the trace has one attempt and no sleep. -/
theorem nodelock_enter_exhausts_retries (nl : NodeLock) (st : SysState)
    (h : conflicts (st.lockTable nl.inode) nl.exclusive = true) :
    ∃ nl' st', NodeLock.enter nl st = (.error .mk, nl', st') ∧
      st'.events = st.events ++
        (Event.tried nl.inode :: failTrace nl.acquisition_max_retries nl.inode) ∧
      triesOf (st'.events.drop st.events.length) =
        1 + nl.acquisition_max_retries ∧
      sleepsOf (st'.events.drop st.events.length) =
        nl.acquisition_max_retries := by
  have hfail := try_locking_fail nl st h
  have hrec := retryLoop_conflict nl.acquisition_max_retries
    { nl with lock := some ⟨nl.inode, nl.exclusive, none⟩ }
    (if nl.high_priority then
        (st.emit (.tried nl.inode)).setAbort nl.inode true
      else st.emit (.tried nl.inode))
    (by by_cases hp : nl.high_priority <;> simpa [hp] using h)
  obtain ⟨nl', st', hloop, _, hev⟩ := hrec
  have hev' : st'.events = st.events ++
      (Event.tried nl.inode :: failTrace nl.acquisition_max_retries nl.inode) := by
    rw [hev]
    by_cases hp : nl.high_priority <;> simp [hp]
  refine ⟨nl', st', ?_, hev', ?_, ?_⟩
  · simp only [NodeLock.enter, hfail]
    exact hloop
  · rw [hev', List.drop_left,
      show Event.tried nl.inode :: failTrace nl.acquisition_max_retries nl.inode
        = [Event.tried nl.inode] ++ failTrace nl.acquisition_max_retries nl.inode
        from rfl,
      triesOf_append, triesOf_failTrace]
    simp [triesOf, List.countP_cons]
  · rw [hev', List.drop_left,
      show Event.tried nl.inode :: failTrace nl.acquisition_max_retries nl.inode
        = [Event.tried nl.inode] ++ failTrace nl.acquisition_max_retries nl.inode
        from rfl,
      sleepsOf_append, sleepsOf_failTrace]
    exact Nat.zero_add _

/-- C1 witness: exclusive request, inode 5, 2 retries, against a permanently
exclusively-held table: 3 attempts, 2 sleeps, `NodeLockedException`. -/
theorem nodelock_enter_exhausts_retries_witness :
    ∃ nl' st',
      NodeLock.enter ⟨true, 2, 5, false, none⟩ stHeldEx = (.error .mk, nl', st') ∧
      st'.events = stHeldEx.events ++ (Event.tried 5 :: failTrace 2 5) ∧
      triesOf (st'.events.drop stHeldEx.events.length) = 1 + 2 ∧
      sleepsOf (st'.events.drop stHeldEx.events.length) = 2 :=
  nodelock_enter_exhausts_retries ⟨true, 2, 5, false, none⟩ stHeldEx rfl

/-- C2: a failed try-lock attempt posts an Abort Request for the resource id
exactly when `high_priority` is set: the attempt reports failure, and the
abort-request registry afterwards equals the old one with the lock's own
inode set to `true` when `high_priority` (idempotently — the value is simply
`true` whether or not it already was), and is unchanged everywhere when not
`high_priority`. -/
theorem nodelock_failed_attempt_abort_posting (nl : NodeLock) (st : SysState)
    (h : conflicts (st.lockTable nl.inode) nl.exclusive = true) :
    (nl.try_locking st).1 = false ∧
    (nl.try_locking st).2.2.abortReqs =
      fun j => if nl.high_priority ∧ j = nl.inode then true
        else st.abortReqs j := by
  rw [try_locking_fail nl st h]
  refine ⟨rfl, funext fun j => ?_⟩
  by_cases hp : nl.high_priority <;> by_cases hj : j = nl.inode <;>
    simp [hp, hj]

/-- C2 witness: a high-priority failed attempt on inode 5 posts the abort
request at 5 and nothing else; a low-priority failed attempt posts nothing. -/
theorem nodelock_failed_attempt_abort_posting_witness :
    (((NodeLock.try_locking ⟨true, 0, 5, true, none⟩ stHeldEx).1 = false ∧
      (NodeLock.try_locking ⟨true, 0, 5, true, none⟩ stHeldEx).2.2.abortReqs =
        fun j => if (true : Bool) ∧ j = 5 then true
          else stHeldEx.abortReqs j) ∧
     ((NodeLock.try_locking ⟨true, 0, 5, false, none⟩ stHeldEx).1 = false ∧
      (NodeLock.try_locking ⟨true, 0, 5, false, none⟩ stHeldEx).2.2.abortReqs =
        fun j => if (false : Bool) ∧ j = 5 then true
          else stHeldEx.abortReqs j)) :=
  ⟨nodelock_failed_attempt_abort_posting ⟨true, 0, 5, true, none⟩ stHeldEx rfl,
   nodelock_failed_attempt_abort_posting ⟨true, 0, 5, false, none⟩ stHeldEx rfl⟩

/-- C3: a successful try-lock attempt reports success, clears any pending
Abort Request for the acquired resource id (afterwards it reads `false`,
whether or not one was pending), and leaves the abort-request registry
unchanged at every other resource id. -/
theorem nodelock_success_clears_abort (nl : NodeLock) (st : SysState)
    (h : conflicts (st.lockTable nl.inode) nl.exclusive = false) :
    (nl.try_locking st).1 = true ∧
    (nl.try_locking st).2.2.abortReqs nl.inode = false ∧
    ∀ j, j ≠ nl.inode → (nl.try_locking st).2.2.abortReqs j = st.abortReqs j := by
  obtain ⟨st', heq, _, hab, _⟩ := try_locking_success nl st h
  rw [heq]
  exact ⟨rfl, by simpa using hab nl.inode, fun j hj => by simpa [hj] using hab j⟩

/-- C3 witness: acquiring inode 5 while an abort request is pending on 5
succeeds and clears it; the marker at inode 7 stays as it was. -/
theorem nodelock_success_clears_abort_witness :
    (NodeLock.try_locking ⟨true, 0, 5, false, none⟩ stFreeAbort5).1 = true ∧
    (NodeLock.try_locking ⟨true, 0, 5, false, none⟩ stFreeAbort5).2.2.abortReqs 5
      = false ∧
    (NodeLock.try_locking ⟨true, 0, 5, false, none⟩ stFreeAbort5).2.2.abortReqs 7
      = stFreeAbort5.abortReqs 7 := by
  obtain ⟨h1, h2, h3⟩ :=
    nodelock_success_clears_abort ⟨true, 0, 5, false, none⟩ stFreeAbort5 rfl
  exact ⟨h1, h2, h3 7 (by decide)⟩

/-! ## Claims C6 and C7: release -/

/-- Either branch of `_try_locking` assigns the `self.lock` attribute. -/
theorem try_locking_lock_isSome (nl : NodeLock) (st : SysState) :
    ((nl.try_locking st).2.1).lock.isSome = true := by
  by_cases h : conflicts (st.lockTable nl.inode) nl.exclusive = true
  · rw [try_locking_fail nl st h]
    rfl
  · obtain ⟨st', heq, _⟩ := try_locking_success nl st
      (by simpa using h)
    rw [heq]
    rfl

/-- The retry loop preserves the presence of the `self.lock` attribute. -/
theorem retryLoop_lock_isSome : ∀ (n : Nat) (nl : NodeLock) (st : SysState),
    nl.lock.isSome = true →
    ((NodeLock.retryLoop n nl st).2.1).lock.isSome = true
  | 0, nl, st, h => h
  | n + 1, nl, st, h => by
    have htl := try_locking_lock_isSome nl (st.emit .slept)
    rcases heq : nl.try_locking (st.emit .slept) with ⟨b, nl₁, st₁⟩
    rw [heq] at htl
    cases b with
    | true => simpa only [NodeLock.retryLoop, heq] using htl
    | false =>
      have := retryLoop_lock_isSome n nl₁ st₁ htl
      simpa only [NodeLock.retryLoop, heq] using this

/-- After any call to `NodeLock.__enter__` — successful or not — the
`self.lock` attribute is assigned. -/
theorem enter_lock_isSome (nl : NodeLock) (st : SysState) :
    ((NodeLock.enter nl st).2.1).lock.isSome = true := by
  have htl := try_locking_lock_isSome nl st
  rcases heq : nl.try_locking st with ⟨b, nl₁, st₁⟩
  rw [heq] at htl
  cases b with
  | true => simpa only [NodeLock.enter, heq] using htl
  | false =>
    have := retryLoop_lock_isSome nl.acquisition_max_retries nl₁ st₁ htl
    simpa only [NodeLock.enter, heq] using this

/-- C6 counterexample: on a freshly constructed `NodeLock` on which no
acquisition was ever attempted, `release()` (`__exit__` / `_unlock`) itself
raises: `self.lock` was never assigned, so `self.lock.release()` fails with
`AttributeError`. -/
theorem nodelock_exit_unentered_raises :
    NodeLock.exit (NodeLock.init 5 true 0 false) stAllFree = .error () := rfl

/-- C6 (amended): for every `NodeLock` on which an acquisition attempt has
been made — `__enter__` was called, whether it succeeded or failed with
`ResourceLocked` — calling `release()` afterwards does not raise: the
primitive lock object exists, and releasing it without a held handle is a
no-op. -/
theorem nodelock_release_after_attempt_safe (nl : NodeLock) (st st₂ : SysState) :
    ∃ q, NodeLock.exit ((NodeLock.enter nl st).2.1) st₂ = .ok q := by
  have h := enter_lock_isSome nl st
  rcases hl : ((NodeLock.enter nl st).2.1).lock with _ | p
  · rw [hl] at h
    simp at h
  · rcases hrel : p.release st₂ with ⟨l', st'⟩
    refine ⟨({ (NodeLock.enter nl st).2.1 with lock := some l' }, st'), ?_⟩
    simp only [NodeLock.exit, hl, hrel]

/-- C7: for every `NodeLock` holding an acquired lock, `release()` succeeds
and leaves the abort-request registry unchanged at every resource id: a
pending Abort Request stays pending, and none is created. -/
theorem nodelock_release_preserves_abort_requests (nl : NodeLock) (p : PLock)
    (st : SysState) (h1 : nl.lock = some p) (h2 : p.fh = some ()) :
    ∃ q, NodeLock.exit nl st = .ok q ∧ q.2.abortReqs = st.abortReqs := by
  simp only [NodeLock.exit, h1, PLock.release, h2]
  exact ⟨_, rfl, rfl⟩

/-- C7 witness: releasing an acquired exclusive lock on inode 5 while an
abort request is pending on inode 5 leaves the registry as it was. -/
theorem nodelock_release_preserves_abort_requests_witness :
    ∃ q, NodeLock.exit ⟨true, 0, 5, false, some ⟨5, true, some ()⟩⟩ stFreeAbort5
        = .ok q ∧
      q.2.abortReqs = stFreeAbort5.abortReqs :=
  nodelock_release_preserves_abort_requests
    ⟨true, 0, 5, false, some ⟨5, true, some ()⟩⟩ ⟨5, true, some ()⟩
    stFreeAbort5 rfl rfl

/-! ## Claim C5: acquisition and release order of a `PathLock` -/

@[simp] theorem acquiresOf_cons_tried (i : Nat) (evs : List Event) :
    acquiresOf (.tried i :: evs) = acquiresOf evs := rfl

@[simp] theorem acquiresOf_cons_slept (evs : List Event) :
    acquiresOf (.slept :: evs) = acquiresOf evs := rfl

@[simp] theorem acquiresOf_cons_acquired (i : Nat) (evs : List Event) :
    acquiresOf (.acquired i :: evs) = i :: acquiresOf evs := rfl

@[simp] theorem acquiresOf_cons_released (i : Nat) (evs : List Event) :
    acquiresOf (.released i :: evs) = acquiresOf evs := rfl

@[simp] theorem releasesOf_cons_tried (i : Nat) (evs : List Event) :
    releasesOf (.tried i :: evs) = releasesOf evs := rfl

@[simp] theorem releasesOf_cons_slept (evs : List Event) :
    releasesOf (.slept :: evs) = releasesOf evs := rfl

@[simp] theorem releasesOf_cons_acquired (i : Nat) (evs : List Event) :
    releasesOf (.acquired i :: evs) = releasesOf evs := rfl

@[simp] theorem releasesOf_cons_released (i : Nat) (evs : List Event) :
    releasesOf (.released i :: evs) = i :: releasesOf evs := rfl

/-- A retry loop that ends in success: the lock records the acquired handle
and the new trace acquires exactly this lock's inode and releases nothing. -/
theorem retryLoop_ok_spec : ∀ (n : Nat) (nl : NodeLock) (st : SysState)
    (nl' : NodeLock) (st' : SysState),
    NodeLock.retryLoop n nl st = (.ok (), nl', st') →
    nl' = { nl with lock := some ⟨nl.inode, nl.exclusive, some ()⟩ } ∧
    ∃ Δ, st'.events = st.events ++ Δ ∧
      acquiresOf Δ = [nl.inode] ∧ releasesOf Δ = []
  | 0, nl, st, nl', st', h => absurd h (by simp [NodeLock.retryLoop])
  | n + 1, nl, st, nl', st', h => by
    by_cases hc : conflicts (st.lockTable nl.inode) nl.exclusive = true
    · have hfail := try_locking_fail nl (st.emit .slept) (by simpa using hc)
      simp only [NodeLock.retryLoop, hfail] at h
      obtain ⟨hnl, Δ, hev, hacq, hrel⟩ := retryLoop_ok_spec n
        { nl with lock := some ⟨nl.inode, nl.exclusive, none⟩ }
        (if nl.high_priority then
            ((st.emit .slept).emit (.tried nl.inode)).setAbort nl.inode true
          else (st.emit .slept).emit (.tried nl.inode))
        nl' st' h
      refine ⟨hnl, Event.slept :: Event.tried nl.inode :: Δ, ?_, by simpa using hacq,
        by simpa using hrel⟩
      rw [hev]
      by_cases hp : nl.high_priority <;> simp [hp]
    · obtain ⟨st₂, heq, hev, _, _⟩ := try_locking_success nl (st.emit .slept)
        (by simpa using hc)
      simp only [NodeLock.retryLoop, heq, Prod.mk.injEq] at h
      obtain ⟨-, hnl, hst⟩ := h
      subst hst
      exact ⟨hnl.symm,
        Event.slept :: Event.tried nl.inode :: [Event.acquired nl.inode],
        by simpa using hev, by simp, by simp⟩

/-- A successful `NodeLock.__enter__`: the lock records the acquired handle,
its configuration fields are untouched, and the new trace acquires exactly
this inode and releases nothing. -/
theorem enter_ok_spec (nl : NodeLock) (st : SysState)
    (nl' : NodeLock) (st' : SysState)
    (h : NodeLock.enter nl st = (.ok (), nl', st')) :
    nl' = { nl with lock := some ⟨nl.inode, nl.exclusive, some ()⟩ } ∧
    ∃ Δ, st'.events = st.events ++ Δ ∧
      acquiresOf Δ = [nl.inode] ∧ releasesOf Δ = [] := by
  by_cases hc : conflicts (st.lockTable nl.inode) nl.exclusive = true
  · have hfail := try_locking_fail nl st hc
    simp only [NodeLock.enter, hfail] at h
    obtain ⟨hnl, Δ, hev, hacq, hrel⟩ := retryLoop_ok_spec nl.acquisition_max_retries
      { nl with lock := some ⟨nl.inode, nl.exclusive, none⟩ }
      (if nl.high_priority then
          (st.emit (.tried nl.inode)).setAbort nl.inode true
        else st.emit (.tried nl.inode))
      nl' st' h
    refine ⟨hnl, Event.tried nl.inode :: Δ, ?_, by simpa using hacq,
      by simpa using hrel⟩
    rw [hev]
    by_cases hp : nl.high_priority <;> simp [hp]
  · obtain ⟨st₂, heq, hev, _, _⟩ := try_locking_success nl st (by simpa using hc)
    simp only [NodeLock.enter, heq, Prod.mk.injEq] at h
    obtain ⟨-, hnl, hst⟩ := h
    subst hst
    exact ⟨hnl.symm, [Event.tried nl.inode, Event.acquired nl.inode],
      by simpa using hev, by simp, by simp⟩

/-- A fully successful `PathLock.__enter__` loop: the resulting locks keep
their inodes in order, each records an acquired handle, and the new trace
acquires exactly the inodes of the list, root to leaf, releasing nothing. -/
theorem enterLocks_ok_spec : ∀ (ls : List NodeLock) (st : SysState)
    (ls' : List NodeLock) (st' : SysState),
    PathLock.enterLocks ls st = (.ok (), ls', st') →
    (ls'.map (fun l => l.inode) = ls.map (fun l => l.inode)) ∧
    (∀ l ∈ ls', ∃ p, l.lock = some p ∧ p.fh = some () ∧ p.inode = l.inode) ∧
    ∃ Δ, st'.events = st.events ++ Δ ∧
      acquiresOf Δ = ls.map (fun l => l.inode) ∧ releasesOf Δ = []
  | [], st, ls', st', h => by
    simp only [PathLock.enterLocks, Prod.mk.injEq] at h
    obtain ⟨-, hls, hst⟩ := h
    subst hst
    exact ⟨by rw [← hls], by rw [← hls]; simp, [], by simp, rfl, rfl⟩
  | l :: rest, st, ls', st', h => by
    rcases he : l.enter st with ⟨r, l₁, st₁⟩
    cases r with
    | error e =>
      simp only [PathLock.enterLocks, he] at h
      exact absurd h (by simp)
    | ok u =>
      cases u
      rcases hrest : PathLock.enterLocks rest st₁ with ⟨r₂, rest', st₂⟩
      simp only [PathLock.enterLocks, he, hrest, Prod.mk.injEq] at h
      obtain ⟨hr₂, hls, hst⟩ := h
      subst hst hr₂
      obtain ⟨hl₁, Δ₁, hev₁, hacq₁, hrel₁⟩ := enter_ok_spec l st l₁ st₁ he
      obtain ⟨hmap, hall, Δ₂, hev₂, hacq₂, hrel₂⟩ :=
        enterLocks_ok_spec rest st₁ rest' st₂ hrest
      refine ⟨?_, ?_, Δ₁ ++ Δ₂, ?_, ?_, ?_⟩
      · rw [← hls]
        simp only [List.map_cons, hmap, hl₁]
      · intro x hx
        rw [← hls] at hx
        rcases List.mem_cons.mp hx with hx | hx
        · subst hx
          rw [hl₁]
          exact ⟨⟨l.inode, l.exclusive, some ()⟩, rfl, rfl, rfl⟩
        · exact hall x hx
      · rw [hev₂, hev₁, List.append_assoc]
      · simp [hacq₁, hacq₂]
      · simp [hrel₁, hrel₂]

/-- Releasing a `NodeLock` that holds an acquired handle: emits one
`released` event on its inode and drops the handle. -/
theorem exit_acquired (nl : NodeLock) (p : PLock) (st : SysState)
    (h1 : nl.lock = some p) (h2 : p.fh = some ()) :
    ∃ v, NodeLock.exit nl st =
      .ok ({ nl with lock := some { p with fh := none } },
           (st.setLock p.inode v).emit (.released p.inode)) := by
  simp only [NodeLock.exit, h1, PLock.release, h2]
  exact ⟨_, rfl⟩

/-- The `PathLock.__exit__` loop over a list of acquired locks: it raises
nothing, releases each lock in list order, and every resulting lock holds no
handle any more. -/
theorem exitLocks_all_acquired : ∀ (ls : List NodeLock) (st : SysState),
    (∀ l ∈ ls, ∃ p, l.lock = some p ∧ p.fh = some () ∧ p.inode = l.inode) →
    ∃ ls' st', PathLock.exitLocks ls st = .ok (ls', st') ∧
      (∃ Δ, st'.events = st.events ++ Δ ∧
        releasesOf Δ = ls.map (fun l => l.inode) ∧ acquiresOf Δ = []) ∧
      ls'.all releasedState = true
  | [], st, _ => ⟨[], st, rfl, ⟨[], by simp, rfl, rfl⟩, rfl⟩
  | l :: rest, st, hall => by
    obtain ⟨p, hp1, hp2, hp3⟩ := hall l (List.mem_cons_self l rest)
    obtain ⟨v, hexit⟩ := exit_acquired l p st hp1 hp2
    obtain ⟨ls', st', hrec, ⟨Δ, hev, hrels, hacq⟩, hallrel⟩ :=
      exitLocks_all_acquired rest
        ((st.setLock p.inode v).emit (.released p.inode))
        (fun x hx => hall x (List.mem_cons_of_mem _ hx))
    refine ⟨{ l with lock := some { p with fh := none } } :: ls', st', ?_,
      ⟨Event.released p.inode :: Δ, ?_, ?_, ?_⟩, ?_⟩
    · simp only [PathLock.exitLocks, hexit, hrec]
    · rw [hev]
      simp
    · simp [hrels, hp3]
    · simp [hacq]
    · simp only [List.all_cons, hallrel, Bool.and_true]
      rfl

/-- C5: for every `PathLock` whose scoped acquisition succeeds, the Node
Locks are acquired in strict root-to-leaf order (the order of the locks
list, which is the order of the decomposed prefixes), and the scope exit
releases them in exactly that same order, with every constituent Node Lock
released (holding no handle) afterwards. -/
theorem pathlock_ordered_acquire_release (pl : PathLock) (st : SysState)
    (pl' : PathLock) (st₁ : SysState)
    (h : PathLock.enter pl st = (.ok (), pl', st₁)) :
    acquiresOf st₁.events =
      acquiresOf st.events ++ pl.locks.map (fun l => l.inode) ∧
    releasesOf st₁.events = releasesOf st.events ∧
    ∃ q, PathLock.exit pl' st₁ = .ok q ∧
      releasesOf q.2.events =
        releasesOf st₁.events ++ pl.locks.map (fun l => l.inode) ∧
      acquiresOf q.2.events = acquiresOf st₁.events ∧
      q.1.locks.all releasedState = true := by
  rcases henter : PathLock.enterLocks pl.locks st with ⟨r, ls1, stx⟩
  simp only [PathLock.enter, henter, Prod.mk.injEq] at h
  obtain ⟨hr, hpl', hst⟩ := h
  subst hr hst
  obtain ⟨hmap, hallacq, Δ₁, hev₁, hacq₁, hrel₁⟩ :=
    enterLocks_ok_spec pl.locks st ls1 stx henter
  obtain ⟨ls2, st2, hexit, ⟨Δ₂, hev₂, hrels₂, hacq₂⟩, hall⟩ :=
    exitLocks_all_acquired ls1 stx hallacq
  refine ⟨by simp [hev₁, hacq₁], by simp [hev₁, hrel₁], (⟨ls2⟩, st2), ?_, ?_, ?_, hall⟩
  · rw [← hpl']
    simp only [PathLock.exit, hexit]
  · simp [hev₂, hrels₂, hmap]
  · simp [hev₂, hacq₂]

/-- A concrete two-node path lock: shared on inode 1, exclusive on inode 2. -/
def plcTwo : PathLock := ⟨[⟨false, 0, 1, false, none⟩, ⟨true, 0, 2, false, none⟩]⟩

/-- C5 witness: entering the two-node path lock on a free table acquires
inodes 1 then 2, and exiting releases 1 then 2, leaving both locks without a
handle. -/
theorem pathlock_ordered_acquire_release_witness :
    acquiresOf (PathLock.enter plcTwo stAllFree).2.2.events =
      acquiresOf stAllFree.events ++ plcTwo.locks.map (fun l => l.inode) ∧
    releasesOf (PathLock.enter plcTwo stAllFree).2.2.events =
      releasesOf stAllFree.events ∧
    ∃ q, PathLock.exit (PathLock.enter plcTwo stAllFree).2.1
        (PathLock.enter plcTwo stAllFree).2.2 = .ok q ∧
      releasesOf q.2.events =
        releasesOf (PathLock.enter plcTwo stAllFree).2.2.events ++
          plcTwo.locks.map (fun l => l.inode) ∧
      acquiresOf q.2.events =
        acquiresOf (PathLock.enter plcTwo stAllFree).2.2.events ∧
      q.1.locks.all releasedState = true :=
  pathlock_ordered_acquire_release plcTwo stAllFree
    (PathLock.enter plcTwo stAllFree).2.1
    (PathLock.enter plcTwo stAllFree).2.2 rfl

/-! ## Claim C4: partial acquisition failure -/

/-- A state in which inode 2 (the leaf of the concrete two-node path) is
pre-held exclusively by someone else and everything else is free. -/
def stLeafHeld : SysState :=
  ⟨fun j => if j = 2 then LockState.exclusive else .free, fun _ => false, []⟩

/-- C4 does not hold of the code: for the path `a/b` (inode 1 for `a`, inode 2
for `a/b`) with the leaf pre-held in a conflicting mode and
`acquisition_max_retries = 0`, the scoped acquisition acquires the root
shared lock, then fails on the leaf and surfaces `NodeLockedException`
while the root lock on inode 1 is still held (`.shared 0` — one holder) and
no release event was emitted: the already-acquired Node Locks are not
released before the error propagates. -/
theorem pathlock_partial_failure_leaves_lock_held :
    PathLock.init ["a", "b"] (fun p => p.length) false true false 0 stLeafHeld
      = some (plcTwo, stLeafHeld) ∧
    (PathLock.enter plcTwo stLeafHeld).1 = .error .mk ∧
    (PathLock.enter plcTwo stLeafHeld).2.2.lockTable 1 = .shared 0 ∧
    releasesOf (PathLock.enter plcTwo stLeafHeld).2.2.events = [] ∧
    acquiresOf (PathLock.enter plcTwo stLeafHeld).2.2.events = [1] :=
  ⟨rfl, rfl, rfl, rfl, rfl⟩

/-! ## Claims C8, C9, C10: `PathLock` construction and `abort_requested` -/

@[simp] theorem yield_partials_length (path : List String) :
    (yield_partials path).length = path.length := by
  simp [yield_partials]

/-- Indexing into a range-map with one element appended. -/
theorem getElem_map_range_concat {α : Type} (F : Nat → α) (x : α) (m i : Nat)
    (hi : i < m + 1) :
    ((List.range m).map F ++ [x])[i]? = some (if i = m then x else F i) := by
  by_cases him : i < m
  · rw [List.getElem?_append_left (by simpa using him)]
    simp [List.getElem?_range, him, Nat.ne_of_lt him]
  · have : i = m := by omega
    subst this
    rw [List.getElem?_append_right (by simp)]
    simp

/-- C8: for every path whose decomposition yields `n ≥ 1` ordered prefixes,
`PathLock` construction builds exactly `n` Node Locks, one per prefix in
root-to-leaf order: position `i` locks the resolved inode of the `(i+1)`-st
prefix, the first `n-1` get mode `exclusive_lock_on_path`, the leaf gets
`exclusive_lock_on_leaf`, and all inherit `high_priority` and
`acquisition_max_retries`. -/
theorem pathlock_init_builds_locks (path : List String) (gi : List String → Nat)
    (ep el hp : Bool) (mr : Nat) (st : SysState) (h : path ≠ []) :
    ∃ pl, PathLock.init path gi ep el hp mr st = some (pl, st) ∧
      pl.locks.length = (yield_partials path).length ∧
      ∀ i, i < (yield_partials path).length →
        pl.locks[i]? = some
          { exclusive := if i + 1 = (yield_partials path).length then el else ep,
            acquisition_max_retries := mr,
            inode := gi (path.take (i + 1)),
            high_priority := hp,
            lock := none } := by
  obtain ⟨m, hm⟩ : ∃ m, path.length = m + 1 := by
    cases hlen : path.length with
    | zero => exact absurd (List.length_eq_zero.mp hlen) h
    | succ m => exact ⟨m, rfl⟩
  have hyp : yield_partials path =
      (List.range m).map (fun k => path.take (k + 1)) ++ [path.take (m + 1)] := by
    rw [yield_partials, hm, List.range_succ, List.map_append, List.map_singleton]
  have hlast : (yield_partials path).getLast? = some (path.take (m + 1)) := by
    rw [hyp]
    exact List.getLast?_concat _
  have hdrop : (yield_partials path).dropLast =
      (List.range m).map (fun k => path.take (k + 1)) := by
    rw [hyp]
    exact List.dropLast_concat
  refine ⟨⟨((List.range m).map (fun k => path.take (k + 1))).map
      (fun p => NodeLock.init (gi p) ep mr hp) ++
      [NodeLock.init (gi (path.take (m + 1))) el mr hp]⟩, ?_, ?_, ?_⟩
  · simp only [PathLock.init, hlast, hdrop]
  · simp only [List.length_append, List.length_map, List.length_range,
      yield_partials_length, hm, List.length_singleton]
  · intro i hi
    rw [yield_partials_length, hm] at hi
    rw [List.map_map, getElem_map_range_concat _ _ m i hi,
      yield_partials_length, hm]
    by_cases him : i = m
    · subst him
      rw [if_pos rfl, if_pos rfl]
      rfl
    · rw [if_neg him, if_neg (by omega)]
      rfl

/-- C8 witness: path `a/b/c` with the resolver mapping a prefix to its
length, defaults (`Shared` on the path, `Exclusive` on the leaf): three Node
Locks, shared on inodes 1 and 2, exclusive on inode 3. -/
theorem pathlock_init_builds_locks_witness :
    ∃ pl, PathLock.init ["a", "b", "c"] (fun p => p.length) false true false 0
        stAllFree = some (pl, stAllFree) ∧
      pl.locks.length = (yield_partials ["a", "b", "c"]).length ∧
      ∀ i, i < (yield_partials ["a", "b", "c"]).length →
        pl.locks[i]? = some
          { exclusive := if i + 1 = (yield_partials ["a", "b", "c"]).length
              then true else false,
            acquisition_max_retries := 0,
            inode := (List.take (i + 1) ["a", "b", "c"]).length,
            high_priority := false,
            lock := none } :=
  pathlock_init_builds_locks ["a", "b", "c"] (fun p => p.length)
    false true false 0 stAllFree (by simp)

/-- C9: `PathLock.abort_requested` is true exactly when at least one of its
Node Locks currently reports a pending Abort Request for its resource id;
in particular it is false when no node of the path has a pending request. -/
theorem pathlock_abort_requested_iff (pl : PathLock) (st : SysState) :
    pl.abort_requested st = true ↔
      ∃ l ∈ pl.locks, st.abortReqs l.inode = true := by
  simp [PathLock.abort_requested, NodeLock.abort_requested, List.any_eq_true]

/-- C10: `PathLock` construction acquires no locks and neither creates nor
clears any Abort Request marker: the lock registry, the abort-request
registry and the event trace are exactly as before construction. -/
theorem pathlock_init_pure (path : List String) (gi : List String → Nat)
    (ep el hp : Bool) (mr : Nat) (st : SysState) (pl : PathLock)
    (st' : SysState)
    (h : PathLock.init path gi ep el hp mr st = some (pl, st')) :
    st'.lockTable = st.lockTable ∧ st'.abortReqs = st.abortReqs ∧
    st'.events = st.events := by
  rcases hlast : (yield_partials path).getLast? with _ | leaf
  · simp only [PathLock.init, hlast] at h
    exact absurd h (by simp)
  · simp only [PathLock.init, hlast, Option.some.injEq, Prod.mk.injEq] at h
    obtain ⟨-, hst⟩ := h
    subst hst
    exact ⟨rfl, rfl, rfl⟩

/-- C10 witness: constructing a one-node path lock over the all-free state
changes neither registry nor the trace. -/
theorem pathlock_init_pure_witness :
    stAllFree.lockTable = stAllFree.lockTable ∧
    stAllFree.abortReqs = stAllFree.abortReqs ∧
    stAllFree.events = stAllFree.events :=
  pathlock_init_pure ["a"] (fun p => p.length) false true false 0 stAllFree
    ⟨[⟨true, 0, 1, false, none⟩]⟩ stAllFree rfl

end Zero
